import Mathlib

/-! gcp_rclone: the token-verification core of `server.go`

A shallow embedding of `getKey`, `verifyGoogleIDToken` and `authMiddleware`
from `src/server.go`, together with the parts of the Go standard library the
three functions lean on (`strings.Split`, `strings.TrimSpace`,
`http.Header.Get`, `context.WithValue`).

Conventions of the embedding

* Go strings are `String`; the string algorithms work on the list of
  characters `String.data`.
* A Go result pair `(T, error)` whose first component is `nil` on failure is
  an `Except GoError T`; `verifyGoogleIDToken`, which builds both components
  explicitly, returns the pair itself.
* Effects (log lines, the call of the verifier, writes to the response, the
  call of the wrapped handler) are recorded in order in a trace of `Event`s.
* A run-time panic (index out of range) is an explicit `Completion.panic`.
* The JWT parser (`jwt.ParseWithClaims`) and the JWK set are external
  libraries: the parser is a parameter, the key set is a list of keys.
-/

set_option autoImplicit false

namespace GcpRclone

/-! ## Go `strings` -/

namespace strings

/-- Go `unicode.IsSpace`: the Latin-1 spaces `\t \n \v \f \r`, space, U+0085,
U+00A0, and the code points with the Unicode White_Space property. -/
def isSpace (c : Char) : Bool :=
  let n := c.toNat
  (decide (9 ≤ n) && decide (n ≤ 13)) || n == 0x20 || n == 0x85 || n == 0xA0 ||
    n == 0x1680 || (decide (0x2000 ≤ n) && decide (n ≤ 0x200A)) ||
    n == 0x2028 || n == 0x2029 || n == 0x202F || n == 0x205F || n == 0x3000

/-- The character-list body of `strings.TrimSpace`: drop the leading white
space, then the trailing white space. -/
def trimSpaceChars (s : List Char) : List Char :=
  ((s.dropWhile isSpace).reverse.dropWhile isSpace).reverse

/-- Go `strings.TrimSpace`. -/
def TrimSpace (s : String) : String :=
  ⟨trimSpaceChars s.data⟩

/-- The loop of Go's `genSplit` for a non-empty separator, on character
lists: scan from the left, cut at the leftmost occurrence of `sep`, continue
behind it. `skip` counts the characters of a matched separator that are still
to be stepped over and `acc` holds the current piece, reversed. -/
def splitLoop (sep : List Char) : Nat → List Char → List Char → List (List Char)
  | _, [], acc => [acc.reverse]
  | skip + 1, _ :: cs, acc => splitLoop sep skip cs acc
  | 0, c :: cs, acc =>
    if sep.isPrefixOf (c :: cs) then
      acc.reverse :: splitLoop sep (sep.length - 1) cs []
    else
      splitLoop sep 0 cs (c :: acc)

/-- Go's `explode` (the empty-separator case of `strings.Split`): one piece
per character. -/
def explode (s : List Char) : List (List Char) :=
  s.map (fun c => [c])

/-- The character-list body of `strings.Split`. -/
def splitChars (s sep : List Char) : List (List Char) :=
  if sep = [] then explode s else splitLoop sep 0 s []

/-- Go `strings.Split`. -/
def Split (s sep : String) : List String :=
  (splitChars s.data sep.data).map String.mk

/-- The number of positions of `s` at which `sep` occurs. -/
def occurrences (sep : List Char) : List Char → Nat
  | [] => if sep.isPrefixOf [] then 1 else 0
  | c :: cs => (if sep.isPrefixOf (c :: cs) then 1 else 0) + occurrences sep cs

end strings

/-! ## Errors, claims, tokens -/

/-- A Go `error` value, identified by its message (`err.Error()`). -/
structure GoError where
  msg : String
  deriving DecidableEq, Repr

/-- Go `errors.New`. -/
def errors.New (text : String) : GoError := ⟨text⟩

/-- Modelled from the spec: the declaration of `jwt.StandardClaims` is not in
the repository; the spec lists the standard claims issuer, audience, subject,
expiry, issued-at and not-before. -/
structure StandardClaims where
  Audience : String
  ExpiresAt : Int
  IssuedAt : Int
  Issuer : String
  NotBefore : Int
  Subject : String
  deriving DecidableEq, Repr

/-- The struct `gcpIdentityDoc` of `server.go`. -/
structure gcpIdentityDoc where
  Email : String
  EmailVerified : Bool
  AuthorizedParty : String
  StandardClaims : StandardClaims
  deriving DecidableEq, Repr

/-- The zero value `gcpIdentityDoc{}`. -/
def gcpIdentityDoc.zero : gcpIdentityDoc :=
  { Email := "", EmailVerified := false, AuthorizedParty := "",
    StandardClaims :=
      { Audience := "", ExpiresAt := 0, IssuedAt := 0, Issuer := "", NotBefore := 0,
        Subject := "" } }

/-- A value of the interface `jwt.Claims` by dynamic type: a
`*gcpIdentityDoc`, or a value of any other claims type. -/
inductive Claims where
  | identityDoc (d : gcpIdentityDoc)
  | other
  deriving DecidableEq, Repr

/-- A value stored in the JOSE header map `map[string]interface{}`, by
dynamic type. -/
inductive HeaderValue where
  | null
  | bool (b : Bool)
  | number (n : Int)
  | string (s : String)
  | array
  | object
  deriving DecidableEq, Repr

/-- The fields of `jwt.Token` that `server.go` reads. -/
structure Token where
  Header : List (String × HeaderValue)
  Claims : Claims
  Valid : Bool
  deriving DecidableEq, Repr

/-- Indexing of the header map, `token.Header[name]`: the entry, or the nil
interface when the map has none. -/
def Token.headerAt : List (String × HeaderValue) → String → HeaderValue
  | [], _ => .null
  | (k, v) :: rest, name => if k = name then v else Token.headerAt rest name

/-! ## The JWK set -/

/-- A materialized public key. -/
structure PublicKey where
  material : String
  deriving DecidableEq, Repr

namespace jwk

/-- A `jwk.Key`: its key identifier and the result of its `Materialize()`
method, which is a `(interface{}, error)` pair in Go. -/
structure Key where
  KeyID : String
  Materialize : Except GoError PublicKey

/-- A `jwk.Set`: the keys in the order of the fetched document. -/
structure Set where
  Keys : List Key

/-- Modelled from the spec: `Set.LookupKeyID` belongs to the JWK library; the
spec has it return the keys whose identifier matches exactly. -/
def Set.LookupKeyID (s : Set) (kid : String) : List Key :=
  s.Keys.filter (fun k => decide (k.KeyID = kid))

end jwk

/-! ## `getKey` -/

/-- The function `getKey` of `server.go`; the global `jwtSet` is a parameter. -/
def getKey (jwtSet : jwk.Set) (token : Token) : Except GoError PublicKey :=
  match Token.headerAt token.Header "kid" with
  | .string keyID =>
    match jwtSet.LookupKeyID keyID with
    | [key] => key.Materialize
    | _ => .error (errors.New "unable to find key")
  | _ => .error (errors.New "expecting JWT header to have string kid")

/-! ## `verifyGoogleIDToken` -/

/-- The type `jwt.Keyfunc`. -/
abbrev Keyfunc := Token → Except GoError PublicKey

/-- What `jwt.ParseWithClaims` returns, a pair `(*Token, error)`: with a
non-nil error the token may or may not be there; with a nil error the library
returns a token. -/
inductive ParseResult where
  | failed (token : Option Token) (err : GoError)
  | parsed (token : Token)
  deriving DecidableEq, Repr

/-- The external function `jwt.ParseWithClaims(rawToken, claims, keyFunc)`. -/
abbrev ParseWithClaims := String → Claims → Keyfunc → ParseResult

/-- A `context.Context` as far as values go: the chain of `WithValue` layers,
innermost last. Keys are identified by their dynamic type and their value. -/
structure CtxKey where
  typ : String
  val : String
  deriving DecidableEq, Repr

/-- A value stored in a context. -/
inductive CtxValue where
  | identityDoc (d : gcpIdentityDoc)
  | other (repr : String)
  deriving DecidableEq, Repr

/-- The value layers of a `context.Context`. -/
abbrev Context := List (CtxKey × CtxValue)

/-- Go `context.WithValue`. -/
def context.WithValue (parent : Context) (key : CtxKey) (val : CtxValue) : Context :=
  (key, val) :: parent

/-- Go `ctx.Value(key)`: the outermost layer with that key. -/
def Context.Value : Context → CtxKey → Option CtxValue
  | [], _ => none
  | (k, v) :: rest, key => if k = key then some v else Context.Value rest key

/-- The line `log.Printf("Error parsing JWT %v", err)`. -/
def logErrorParsing (err : GoError) : String :=
  "Error parsing JWT " ++ err.msg

/-- The line
`log.Printf("OIDC doc has Audience [%s]   Issuer [%v]", claims.Audience, claims.StandardClaims.Issuer)`. -/
def logOIDCDoc (claims : gcpIdentityDoc) : String :=
  "OIDC doc has Audience [" ++ claims.StandardClaims.Audience ++ "]   Issuer [" ++
    claims.StandardClaims.Issuer ++ "]"

/-- The function `verifyGoogleIDToken` of `server.go`. The result is the
returned pair `(gcpIdentityDoc, error)` and the log lines written, in order.
The JWT parser and the global `jwtSet` are parameters. -/
def verifyGoogleIDToken (P : ParseWithClaims) (jwtSet : jwk.Set) (_ctx : Context)
    (_aud : String) (rawToken : String) : (gcpIdentityDoc × Option GoError) × List String :=
  match P rawToken (.identityDoc gcpIdentityDoc.zero) (getKey jwtSet) with
  | .failed _ err => ((gcpIdentityDoc.zero, some err), [logErrorParsing err])
  | .parsed token =>
    match token.Claims, token.Valid with
    | .identityDoc claims, true => ((claims, none), [logOIDCDoc claims])
    | _, _ => ((gcpIdentityDoc.zero, some (errors.New "Error parsing JWT Claims")), [])

/-! ## `authMiddleware` -/

namespace http

/-- Go `http.StatusUnauthorized`. -/
def StatusUnauthorized : Nat := 401

/-- Go `http.StatusText`, on the status codes `server.go` uses. -/
def StatusText (code : Nat) : String :=
  if code = 200 then "OK"
  else if code = 401 then "Unauthorized"
  else if code = 500 then "Internal Server Error"
  else ""

/-- A `http.Header`, the map from canonical header names to their values. -/
abbrev Header := List (String × List String)

/-- Go `Header.Get`: the first value stored under the key, or the empty
string. -/
def Header.Get : Header → String → String
  | [], _ => ""
  | (k, vs) :: rest, key => if k = key then vs.headD "" else Header.Get rest key

/-- The parts of a `http.Request` a handler can observe. -/
structure Request where
  Method : String
  URL : String
  Header : Header
  Body : String
  ctx : Context
  deriving DecidableEq, Repr

/-- Go `r.Context()`. -/
def Request.Context (r : Request) : GcpRclone.Context := r.ctx

/-- Go `r.WithContext(ctx)`: a copy of the request with the context replaced. -/
def Request.WithContext (r : Request) (ctx : GcpRclone.Context) : Request :=
  { r with ctx := ctx }

end http

/-- The constant `contextEventKey`, of type `contextKey`. -/
def contextEventKey : CtxKey := ⟨"contextKey", "event"⟩

/-- An observable step of a run of the handler. -/
inductive Event where
  /-- A line written through the `log` package. -/
  | log (line : String)
  /-- The call `verifyGoogleIDToken(ctx, aud, rawToken)`. -/
  | verify (aud : String) (rawToken : String)
  /-- The call `http.Error(w, error, code)`, which answers with the status
  `code` and the line `error` as the body. -/
  | httpError (error : String) (code : Nat)
  /-- The call `h.ServeHTTP(w, r)` of the wrapped handler. -/
  | serveHTTP (r : http.Request)
  deriving DecidableEq, Repr

/-- How a run of the handler ends. -/
inductive Completion where
  | returned
  | panic (msg : String)
  deriving DecidableEq, Repr

/-- A run of the handler: what it did, and how it ended. -/
structure Run where
  trace : List Event
  completion : Completion
  deriving DecidableEq, Repr

/-- The message of the run-time panic of an index expression `a[i]` with
`i` out of range. -/
def indexOutOfRange (i len : Nat) : String :=
  "runtime error: index out of range [" ++ toString i ++ "] with length " ++ toString len

/-- The handler returned by `authMiddleware(h)` in `server.go`, run on the
request `r`. The JWT parser and the globals `jwtSet` and `myAudience` are
parameters; the wrapped handler `h` shows as the event `serveHTTP`. -/
def authMiddleware (P : ParseWithClaims) (jwtSet : jwk.Set) (myAudience : String)
    (r : http.Request) : Run :=
  let t0 := [Event.log "/authMiddleware called"]
  let authHeader := http.Header.Get r.Header "Authorization"
  if authHeader = "" then
    ⟨t0 ++ [.httpError (http.StatusText http.StatusUnauthorized) http.StatusUnauthorized],
      .returned⟩
  else
    let splitToken := strings.Split authHeader "Bearer"
    if splitToken.length > 0 then
      match splitToken.get? 1 with
      | none => ⟨t0, .panic (indexOutOfRange 1 splitToken.length)⟩
      | some piece =>
        let tok := strings.TrimSpace piece
        let res := verifyGoogleIDToken P jwtSet r.Context myAudience tok
        let t1 := t0 ++ [Event.verify myAudience tok] ++ res.2.map Event.log
        match res.1 with
        | (_, some _) =>
          ⟨t1 ++ [.httpError (http.StatusText http.StatusUnauthorized) http.StatusUnauthorized],
            .returned⟩
        | (idDoc, none) =>
          let ctx := context.WithValue r.Context contextEventKey (.identityDoc idDoc)
          ⟨t1 ++ [.log ("Authenticated email: " ++ idDoc.Email),
              .serveHTTP (r.WithContext ctx)], .returned⟩
    else
      ⟨t0 ++ [.httpError (http.StatusText http.StatusUnauthorized) http.StatusUnauthorized],
        .returned⟩

/-- The writes to the response in a trace. -/
def responseWrites (t : List Event) : List Event :=
  t.filter (fun e => match e with
    | .httpError _ _ => true
    | _ => false)

/-- The calls of the wrapped handler in a trace. -/
def handlerCalls (t : List Event) : List http.Request :=
  t.filterMap (fun e => match e with
    | .serveHTTP r => some r
    | _ => none)

/-- The calls of `verifyGoogleIDToken` in a trace, as pairs of audience and
raw token. -/
def verifierCalls (t : List Event) : List (String × String) :=
  t.filterMap (fun e => match e with
    | .verify aud tok => some (aud, tok)
    | _ => none)

/-- The log lines in a trace. -/
def logLines (t : List Event) : List String :=
  t.filterMap (fun e => match e with
    | .log line => some line
    | _ => none)

/-! ## Concrete data for the instances -/

namespace Demo

/-- A materialized key. -/
def pub1 : PublicKey := ⟨"rsa-public-key-1"⟩

/-- A key set with one good key `k1`, two keys sharing the identifier `dup`
and a key `bad` whose materialization fails. -/
def keySet : jwk.Set :=
  ⟨[⟨"k1", .ok pub1⟩, ⟨"dup", .ok ⟨"rsa-public-key-2"⟩⟩, ⟨"dup", .ok ⟨"rsa-public-key-3"⟩⟩,
    ⟨"bad", .error ⟨"key has no rsa.PublicKey associated with it"⟩⟩]⟩

/-- An identity document. -/
def doc : gcpIdentityDoc :=
  { Email := "scheduler@project.iam.gserviceaccount.com", EmailVerified := true,
    AuthorizedParty := "1071284184436",
    StandardClaims :=
      { Audience := "https://other.example.com", ExpiresAt := 1600000000,
        IssuedAt := 1599996400, Issuer := "https://accounts.google.com", NotBefore := 0,
        Subject := "1071284184436" } }

/-- A token with key identifier `kid` carrying `doc`, not yet validated. -/
def tokenFor (kid : String) : Token :=
  { Header := [("alg", .string "RS256"), ("kid", .string kid)], Claims := .identityDoc doc,
    Valid := false }

/-- A stand-in for the JWT parser on four raw tokens: `good` is signed by
`k1`, `forged` names `k1` but carries another signature, `unknown` names a key
the set lacks, anything else is not a three-part token. The key is resolved
through the key function, as the library does. -/
def parser : ParseWithClaims := fun rawToken _ keyFunc =>
  if rawToken = "good" ∨ rawToken = "forged" ∨ rawToken = "unknown" then
    let token := tokenFor (if rawToken = "unknown" then "k9" else "k1")
    match keyFunc token with
    | .error e => .failed (some token) e
    | .ok key =>
      if rawToken = "good" ∧ key = pub1 then .parsed { token with Valid := true }
      else .failed (some token) ⟨"crypto/rsa: verification error"⟩
  else .failed none ⟨"token contains an invalid number of segments"⟩

/-- A request with the given `Authorization` header values. -/
def request (auth : List String) : http.Request :=
  { Method := "GET", URL := "/", Header := [("Accept", ["*/*"]), ("Authorization", auth)],
    Body := "", ctx := [(⟨"traceKey", "trace"⟩, .other "abc123")] }

/-- A request without an `Authorization` header. -/
def requestNoAuth : http.Request :=
  { Method := "GET", URL := "/", Header := [("Accept", ["*/*"])], Body := "",
    ctx := [(⟨"traceKey", "trace"⟩, .other "abc123")] }

end Demo

/-! ## Lemmas on `strings.Split` -/

namespace strings

theorem isPrefixOf_self_append (sep post : List Char) : sep.isPrefixOf (sep ++ post) = true := by
  rw [List.isPrefixOf_iff_prefix]
  exact List.prefix_append sep post

theorem occurrences_suffix_le (sep : List Char) (xs s : List Char) :
    occurrences sep s ≤ occurrences sep (xs ++ s) := by
  induction xs with
  | nil => simp
  | cons x xs ih =>
    have hstep : occurrences sep (x :: xs ++ s) =
        (if sep.isPrefixOf (x :: (xs ++ s)) then 1 else 0) + occurrences sep (xs ++ s) := rfl
    rw [hstep]
    omega

theorem occurrences_marker_pos (sep post : List Char) (hsep : sep ≠ []) :
    1 ≤ occurrences sep (sep ++ post) := by
  cases sep with
  | nil => exact absurd rfl hsep
  | cons a as =>
    have h := isPrefixOf_self_append (a :: as) post
    simp only [List.cons_append] at h ⊢
    simp only [occurrences, h, if_true]
    omega

/-- Stepping over the rest of a matched separator. -/
theorem splitLoop_skip (sep : List Char) (xs post acc : List Char) :
    splitLoop sep xs.length (xs ++ post) acc = splitLoop sep 0 post acc := by
  induction xs with
  | nil =>
    cases post <;> simp [splitLoop]
  | cons x xs ih =>
    simp only [List.length_cons, List.cons_append, splitLoop]
    exact ih

/-- Without an occurrence of the separator the input is the only piece. -/
theorem splitLoop_no_occurrence (sep : List Char) (s acc : List Char)
    (h : occurrences sep s = 0) : splitLoop sep 0 s acc = [acc.reverse ++ s] := by
  induction s generalizing acc with
  | nil => simp [splitLoop]
  | cons c cs ih =>
    simp only [occurrences] at h
    have hp : sep.isPrefixOf (c :: cs) = false := by
      cases hb : sep.isPrefixOf (c :: cs) with
      | false => rfl
      | true => rw [hb] at h; simp at h
    have hc : occurrences sep cs = 0 := by omega
    simp only [splitLoop, hp, Bool.false_eq_true, if_false]
    rw [ih (c :: acc) hc]
    simp

/-- With exactly one occurrence of the separator there are two pieces: the
text before it and the text behind it. -/
theorem splitLoop_one_occurrence (sep : List Char) (hsep : sep ≠ [])
    (pre post acc : List Char) (h : occurrences sep (pre ++ sep ++ post) = 1) :
    splitLoop sep 0 (pre ++ sep ++ post) acc = [acc.reverse ++ pre, post] := by
  induction pre generalizing acc with
  | nil =>
    cases sep with
    | nil => exact absurd rfl hsep
    | cons a as =>
      have hp := isPrefixOf_self_append (a :: as) post
      simp only [List.nil_append, List.cons_append] at h hp ⊢
      simp only [occurrences, hp, if_true] at h
      have h0 : occurrences (a :: as) (as ++ post) = 0 := by omega
      have h1 : occurrences (a :: as) post = 0 := by
        have := occurrences_suffix_le (a :: as) as post
        omega
      simp only [splitLoop, hp, if_true, List.length_cons, Nat.add_sub_cancel]
      rw [splitLoop_skip, splitLoop_no_occurrence (a :: as) post [] h1]
      simp
  | cons c pre ih =>
    simp only [List.cons_append, List.append_assoc] at h ⊢
    simp only [occurrences] at h
    have hge : 1 ≤ occurrences sep (pre ++ (sep ++ post)) := by
      have h1 := occurrences_marker_pos sep post hsep
      have h2 := occurrences_suffix_le sep pre (sep ++ post)
      omega
    have hp : sep.isPrefixOf (c :: (pre ++ (sep ++ post))) = false := by
      cases hb : sep.isPrefixOf (c :: (pre ++ (sep ++ post))) with
      | false => rfl
      | true => rw [hb] at h; simp at h; omega
    have hc : occurrences sep (pre ++ sep ++ post) = 1 := by
      rw [hp] at h
      simp at h
      simpa using h
    simp only [splitLoop, hp, Bool.false_eq_true, if_false]
    have := ih (c :: acc) hc
    simp only [List.append_assoc] at this
    rw [this]
    simp

/-- The marker of the `Authorization` header, as a list of characters. -/
theorem bearer_data : ("Bearer" : String).data = ['B', 'e', 'a', 'r', 'e', 'r'] := rfl

/-- The pieces of a header value without the marker. -/
theorem Split_no_marker (s : String) (h : occurrences ("Bearer" : String).data s.data = 0) :
    Split s "Bearer" = [s] := by
  unfold Split splitChars
  rw [if_neg (by rw [bearer_data]; simp)]
  rw [splitLoop_no_occurrence _ _ _ h]
  simp

/-- The pieces of a header value with one marker. -/
theorem Split_one_marker (s : String) (pre post : List Char)
    (hs : s.data = pre ++ ("Bearer" : String).data ++ post)
    (h : occurrences ("Bearer" : String).data s.data = 1) :
    Split s "Bearer" = [⟨pre⟩, ⟨post⟩] := by
  unfold Split splitChars
  rw [if_neg (by rw [bearer_data]; simp)]
  rw [hs] at h ⊢
  rw [splitLoop_one_occurrence _ (by rw [bearer_data]; simp) _ _ _ h]
  simp

/-- White space holds no marker. -/
theorem occurrences_spaces (ws : List Char) (hws : ∀ c ∈ ws, isSpace c = true) :
    occurrences ("Bearer" : String).data ws = 0 := by
  rw [bearer_data]
  induction ws with
  | nil => simp [occurrences, List.isPrefixOf]
  | cons c cs ih =>
    have hc : isSpace c = true := hws c (List.mem_cons_self c cs)
    have hcB : c ≠ 'B' := by
      intro hB
      rw [hB] at hc
      revert hc
      decide
    have ih2 := ih (fun d hd => hws d (List.mem_cons_of_mem c hd))
    simp [occurrences, List.isPrefixOf, ih2, hcB.symm]

/-- The first character left by dropping leading white space is no white
space. -/
theorem head?_dropWhile_isSpace (l : List Char) (c : Char)
    (h : (l.dropWhile isSpace).head? = some c) : isSpace c = false := by
  have hnot := List.head?_dropWhile_not isSpace l
  rw [h] at hnot
  exact hnot

/-- What trimming does: the input is white space, then the result, then
white space, and the result neither starts nor ends with white space. -/
theorem trimSpaceChars_spec (s : List Char) :
    ∃ lead trail : List Char,
      s = lead ++ trimSpaceChars s ++ trail ∧
      (∀ c ∈ lead, isSpace c = true) ∧ (∀ c ∈ trail, isSpace c = true) ∧
      (∀ c, (trimSpaceChars s).head? = some c → isSpace c = false) ∧
      (∀ c, (trimSpaceChars s).getLast? = some c → isSpace c = false) := by
  have hm : s.dropWhile isSpace =
      trimSpaceChars s ++ ((s.dropWhile isSpace).reverse.takeWhile isSpace).reverse := by
    have h := List.takeWhile_append_dropWhile isSpace (s.dropWhile isSpace).reverse
    have h2 := congrArg List.reverse h
    rw [List.reverse_append, List.reverse_reverse] at h2
    exact h2.symm
  refine ⟨s.takeWhile isSpace, ((s.dropWhile isSpace).reverse.takeWhile isSpace).reverse,
    ?_, ?_, ?_, ?_, ?_⟩
  · rw [List.append_assoc, ← hm, List.takeWhile_append_dropWhile]
  · intro c hc
    exact List.mem_takeWhile_imp hc
  · intro c hc
    exact List.mem_takeWhile_imp (List.mem_reverse.mp hc)
  · intro c hc
    apply head?_dropWhile_isSpace s c
    rw [hm, List.head?_append, hc]
    rfl
  · intro c hc
    apply head?_dropWhile_isSpace (s.dropWhile isSpace).reverse c
    unfold trimSpaceChars at hc
    rw [List.getLast?_reverse] at hc
    exact hc

/-- Trimming white space only leaves nothing. -/
theorem trimSpaceChars_spaces (ws : List Char) (hws : ∀ c ∈ ws, isSpace c = true) :
    trimSpaceChars ws = [] := by
  have h : ws.dropWhile isSpace = [] := by
    rw [List.dropWhile_eq_nil_iff]
    exact hws
  simp [trimSpaceChars, h]

end strings

/-! ## Lemmas on traces and on the paths of `authMiddleware` -/

theorem responseWrites_logs (ls : List String) : responseWrites (ls.map Event.log) = [] := by
  induction ls with
  | nil => rfl
  | cons l ls ih => simp [responseWrites]

theorem handlerCalls_logs (ls : List String) : handlerCalls (ls.map Event.log) = [] := by
  induction ls with
  | nil => rfl
  | cons l ls ih => simp [handlerCalls]

theorem verifierCalls_logs (ls : List String) : verifierCalls (ls.map Event.log) = [] := by
  induction ls with
  | nil => rfl
  | cons l ls ih => simp [verifierCalls]

theorem responseWrites_append (s t : List Event) :
    responseWrites (s ++ t) = responseWrites s ++ responseWrites t := by
  simp [responseWrites]

theorem handlerCalls_append (s t : List Event) :
    handlerCalls (s ++ t) = handlerCalls s ++ handlerCalls t := by
  simp [handlerCalls]

theorem verifierCalls_append (s t : List Event) :
    verifierCalls (s ++ t) = verifierCalls s ++ verifierCalls t := by
  simp [verifierCalls]

/-- The status text written on rejection. -/
theorem statusText_unauthorized : http.StatusText http.StatusUnauthorized = "Unauthorized" := by
  decide

/-- The path of `authMiddleware` without an `Authorization` header. -/
theorem authMiddleware_of_empty (P : ParseWithClaims) (jwtSet : jwk.Set) (aud : String)
    (r : http.Request) (h : http.Header.Get r.Header "Authorization" = "") :
    authMiddleware P jwtSet aud r =
      ⟨[.log "/authMiddleware called", .httpError "Unauthorized" 401], .returned⟩ := by
  unfold authMiddleware
  simp only [h, if_true]
  rfl

/-- The path of `authMiddleware` on which `splitToken[1]` is out of range. -/
theorem authMiddleware_of_single_piece (P : ParseWithClaims) (jwtSet : jwk.Set) (aud : String)
    (r : http.Request) (hne : http.Header.Get r.Header "Authorization" ≠ "")
    (hsplit : strings.Split (http.Header.Get r.Header "Authorization") "Bearer" =
      [http.Header.Get r.Header "Authorization"]) :
    authMiddleware P jwtSet aud r =
      ⟨[.log "/authMiddleware called"], .panic (indexOutOfRange 1 1)⟩ := by
  unfold authMiddleware
  simp only [hne, if_false, hsplit]
  rfl

/-- The path of `authMiddleware` on which the verifier returns an error. -/
theorem authMiddleware_of_error (P : ParseWithClaims) (jwtSet : jwk.Set) (aud : String)
    (r : http.Request) (piece : String) (d : gcpIdentityDoc) (e : GoError)
    (hne : http.Header.Get r.Header "Authorization" ≠ "")
    (hsplit : (strings.Split (http.Header.Get r.Header "Authorization") "Bearer").get? 1 =
      some piece)
    (herr : (verifyGoogleIDToken P jwtSet r.Context aud (strings.TrimSpace piece)).1 =
      (d, some e)) :
    authMiddleware P jwtSet aud r =
      ⟨[.log "/authMiddleware called", .verify aud (strings.TrimSpace piece)] ++
        (verifyGoogleIDToken P jwtSet r.Context aud (strings.TrimSpace piece)).2.map Event.log ++
        [.httpError "Unauthorized" 401], .returned⟩ := by
  have hlen : (strings.Split (http.Header.Get r.Header "Authorization") "Bearer").length > 0 := by
    cases hs : strings.Split (http.Header.Get r.Header "Authorization") "Bearer" with
    | nil => rw [hs] at hsplit; simp at hsplit
    | cons a as => simp
  unfold authMiddleware
  simp only [hne, if_false, hlen, if_true, hsplit, herr]
  rfl

/-- The path of `authMiddleware` on which the verifier succeeds. -/
theorem authMiddleware_of_success (P : ParseWithClaims) (jwtSet : jwk.Set) (aud : String)
    (r : http.Request) (piece : String) (d : gcpIdentityDoc)
    (hne : http.Header.Get r.Header "Authorization" ≠ "")
    (hsplit : (strings.Split (http.Header.Get r.Header "Authorization") "Bearer").get? 1 =
      some piece)
    (hok : (verifyGoogleIDToken P jwtSet r.Context aud (strings.TrimSpace piece)).1 =
      (d, none)) :
    authMiddleware P jwtSet aud r =
      ⟨[.log "/authMiddleware called", .verify aud (strings.TrimSpace piece)] ++
        (verifyGoogleIDToken P jwtSet r.Context aud (strings.TrimSpace piece)).2.map Event.log ++
        [.log ("Authenticated email: " ++ d.Email),
          .serveHTTP (r.WithContext
            (context.WithValue r.Context contextEventKey (.identityDoc d)))], .returned⟩ := by
  have hlen : (strings.Split (http.Header.Get r.Header "Authorization") "Bearer").length > 0 := by
    cases hs : strings.Split (http.Header.Get r.Header "Authorization") "Bearer" with
    | nil => rw [hs] at hsplit; simp at hsplit
    | cons a as => simp
  unfold authMiddleware
  simp only [hne, if_false, hlen, if_true, hsplit, hok]
  rfl

/-! ## The claims on `authMiddleware` -/

/-- C1 (the code at the inputs the claim names): for a non-empty
`Authorization` value without the marker `Bearer`, `strings.Split` returns one
piece, the guard `len(splitToken) > 0` passes, and the index expression
`splitToken[1]` panics: nothing is written to the response, the verifier and
the wrapped handler are not called. -/
theorem authMiddleware_panics_without_marker (P : ParseWithClaims) (jwtSet : jwk.Set)
    (aud : String) (r : http.Request)
    (hne : http.Header.Get r.Header "Authorization" ≠ "")
    (hno : strings.occurrences ("Bearer" : String).data
      (http.Header.Get r.Header "Authorization").data = 0) :
    (strings.Split (http.Header.Get r.Header "Authorization") "Bearer").get? 1 = none ∧
    authMiddleware P jwtSet aud r =
      ⟨[.log "/authMiddleware called"],
        .panic "runtime error: index out of range [1] with length 1"⟩ ∧
    responseWrites (authMiddleware P jwtSet aud r).trace = [] := by
  have hs := strings.Split_no_marker _ hno
  have hrun := authMiddleware_of_single_piece P jwtSet aud r hne hs
  refine ⟨by rw [hs]; rfl, ?_, ?_⟩
  · rw [hrun]
    have : indexOutOfRange 1 1 = "runtime error: index out of range [1] with length 1" := by
      decide
    rw [this]
  · rw [hrun]
    rfl

/-- C1 at the header value `Basic abc`: the run panics and writes no
response. -/
theorem authMiddleware_panics_without_marker_witness :
    (strings.Split (http.Header.Get (Demo.request ["Basic abc"]).Header "Authorization")
      "Bearer").get? 1 = none ∧
    authMiddleware Demo.parser Demo.keySet "https://my.example.com"
        (Demo.request ["Basic abc"]) =
      ⟨[.log "/authMiddleware called"],
        .panic "runtime error: index out of range [1] with length 1"⟩ ∧
    responseWrites (authMiddleware Demo.parser Demo.keySet "https://my.example.com"
      (Demo.request ["Basic abc"])).trace = [] :=
  authMiddleware_panics_without_marker Demo.parser Demo.keySet "https://my.example.com"
    (Demo.request ["Basic abc"]) (by decide) (by decide)

/-- C2: when `Header.Get` returns the empty string for `Authorization`, the
run is exactly: the log line, then `http.Error` with the status text of 401
and the status 401. The verifier is not called, the wrapped handler is not
called, and the run is the same whatever the parser, the key set and the
audience are. -/
theorem authMiddleware_missing_header (P P' : ParseWithClaims) (jwtSet jwtSet' : jwk.Set)
    (aud aud' : String) (r : http.Request)
    (h : http.Header.Get r.Header "Authorization" = "") :
    authMiddleware P jwtSet aud r =
      ⟨[.log "/authMiddleware called",
        .httpError (http.StatusText http.StatusUnauthorized) http.StatusUnauthorized],
        .returned⟩ ∧
    http.StatusUnauthorized = 401 ∧
    responseWrites (authMiddleware P jwtSet aud r).trace =
      [.httpError (http.StatusText 401) 401] ∧
    verifierCalls (authMiddleware P jwtSet aud r).trace = [] ∧
    handlerCalls (authMiddleware P jwtSet aud r).trace = [] ∧
    authMiddleware P jwtSet aud r = authMiddleware P' jwtSet' aud' r := by
  rw [authMiddleware_of_empty P jwtSet aud r h, authMiddleware_of_empty P' jwtSet' aud' r h]
  exact ⟨rfl, rfl, rfl, rfl, rfl, rfl⟩

/-- C2 at a request without an `Authorization` header. -/
theorem authMiddleware_missing_header_witness :
    authMiddleware Demo.parser Demo.keySet "https://my.example.com" Demo.requestNoAuth =
      ⟨[.log "/authMiddleware called",
        .httpError (http.StatusText http.StatusUnauthorized) http.StatusUnauthorized],
        .returned⟩ ∧
    http.StatusUnauthorized = 401 ∧
    responseWrites (authMiddleware Demo.parser Demo.keySet "https://my.example.com"
      Demo.requestNoAuth).trace = [.httpError (http.StatusText 401) 401] ∧
    verifierCalls (authMiddleware Demo.parser Demo.keySet "https://my.example.com"
      Demo.requestNoAuth).trace = [] ∧
    handlerCalls (authMiddleware Demo.parser Demo.keySet "https://my.example.com"
      Demo.requestNoAuth).trace = [] ∧
    authMiddleware Demo.parser Demo.keySet "https://my.example.com" Demo.requestNoAuth =
      authMiddleware (fun _ _ _ => .parsed (Demo.tokenFor "k1")) ⟨[]⟩ "" Demo.requestNoAuth :=
  authMiddleware_missing_header Demo.parser (fun _ _ _ => .parsed (Demo.tokenFor "k1"))
    Demo.keySet ⟨[]⟩ "https://my.example.com" "" Demo.requestNoAuth (by decide)

/-- C3: when the verifier, called on the token taken from the header, returns
an error `e`, the writes to the response are exactly `http.Error` with the
status text of 401 and the status 401, whatever `e` is; the wrapped handler is
not called; and these writes are the ones of a request without an
`Authorization` header. -/
theorem authMiddleware_verifier_error (P : ParseWithClaims) (jwtSet : jwk.Set) (aud : String)
    (r : http.Request) (piece : String) (d : gcpIdentityDoc) (e : GoError)
    (hne : http.Header.Get r.Header "Authorization" ≠ "")
    (hsplit : (strings.Split (http.Header.Get r.Header "Authorization") "Bearer").get? 1 =
      some piece)
    (herr : (verifyGoogleIDToken P jwtSet r.Context aud (strings.TrimSpace piece)).1 =
      (d, some e)) :
    responseWrites (authMiddleware P jwtSet aud r).trace =
      [.httpError (http.StatusText 401) 401] ∧
    handlerCalls (authMiddleware P jwtSet aud r).trace = [] ∧
    (authMiddleware P jwtSet aud r).completion = .returned ∧
    (∀ r0 : http.Request, http.Header.Get r0.Header "Authorization" = "" →
      responseWrites (authMiddleware P jwtSet aud r0).trace =
        responseWrites (authMiddleware P jwtSet aud r).trace) := by
  have hrun := authMiddleware_of_error P jwtSet aud r piece d e hne hsplit herr
  have hw : responseWrites (authMiddleware P jwtSet aud r).trace =
      [.httpError (http.StatusText 401) 401] := by
    rw [hrun]
    simp only [responseWrites_append, responseWrites_logs]
    rfl
  refine ⟨hw, ?_, ?_, ?_⟩
  · rw [hrun]
    simp only [handlerCalls_append, handlerCalls_logs]
    rfl
  · rw [hrun]
  · intro r0 h0
    rw [hw, authMiddleware_of_empty P jwtSet aud r0 h0]
    rfl

/-- C3 at the header `Bearer forged`, where the parser reports a signature
error. -/
theorem authMiddleware_verifier_error_witness :
    responseWrites (authMiddleware Demo.parser Demo.keySet "https://my.example.com"
      (Demo.request ["Bearer forged"])).trace = [.httpError (http.StatusText 401) 401] ∧
    handlerCalls (authMiddleware Demo.parser Demo.keySet "https://my.example.com"
      (Demo.request ["Bearer forged"])).trace = [] ∧
    (authMiddleware Demo.parser Demo.keySet "https://my.example.com"
      (Demo.request ["Bearer forged"])).completion = .returned ∧
    (∀ r0 : http.Request, http.Header.Get r0.Header "Authorization" = "" →
      responseWrites (authMiddleware Demo.parser Demo.keySet "https://my.example.com"
        r0).trace =
      responseWrites (authMiddleware Demo.parser Demo.keySet "https://my.example.com"
        (Demo.request ["Bearer forged"])).trace) :=
  authMiddleware_verifier_error Demo.parser Demo.keySet "https://my.example.com"
    (Demo.request ["Bearer forged"]) " forged" gcpIdentityDoc.zero
    ⟨"crypto/rsa: verification error"⟩ (by decide) (by decide) (by decide)

/-- C4: when the verifier, called on the token taken from the header, returns
the identity document `d` and a nil error, the wrapped handler is called
exactly once; the request it gets has `d` under `contextEventKey`, every
other context key as before, and the method, URL, headers and body of the
inbound request; and `authMiddleware` writes nothing to the response. -/
theorem authMiddleware_verifier_success (P : ParseWithClaims) (jwtSet : jwk.Set)
    (aud : String) (r : http.Request) (piece : String) (d : gcpIdentityDoc)
    (hne : http.Header.Get r.Header "Authorization" ≠ "")
    (hsplit : (strings.Split (http.Header.Get r.Header "Authorization") "Bearer").get? 1 =
      some piece)
    (hok : (verifyGoogleIDToken P jwtSet r.Context aud (strings.TrimSpace piece)).1 =
      (d, none)) :
    ∃ r2 : http.Request,
      handlerCalls (authMiddleware P jwtSet aud r).trace = [r2] ∧
      r2 = { r with ctx := (contextEventKey, CtxValue.identityDoc d) :: r.ctx } ∧
      Context.Value r2.Context contextEventKey = some (.identityDoc d) ∧
      (∀ k : CtxKey, k ≠ contextEventKey →
        Context.Value r2.Context k = Context.Value r.Context k) ∧
      r2.Method = r.Method ∧ r2.URL = r.URL ∧ r2.Header = r.Header ∧ r2.Body = r.Body ∧
      responseWrites (authMiddleware P jwtSet aud r).trace = [] ∧
      (authMiddleware P jwtSet aud r).completion = .returned := by
  have hrun := authMiddleware_of_success P jwtSet aud r piece d hne hsplit hok
  refine ⟨r.WithContext (context.WithValue r.Context contextEventKey (.identityDoc d)),
    ?_, rfl, ?_, ?_, rfl, rfl, rfl, rfl, ?_, ?_⟩
  · rw [hrun]
    simp only [handlerCalls_append, handlerCalls_logs]
    rfl
  · simp [http.Request.WithContext, http.Request.Context, context.WithValue, Context.Value]
  · intro k hk
    simp [http.Request.WithContext, http.Request.Context, context.WithValue, Context.Value,
      Ne.symm hk]
  · rw [hrun]
    simp only [responseWrites_append, responseWrites_logs]
    rfl
  · rw [hrun]

/-- C4 at the header `Bearer good`, for which the parser returns `Demo.doc`. -/
theorem authMiddleware_verifier_success_witness :
    ∃ r2 : http.Request,
      handlerCalls (authMiddleware Demo.parser Demo.keySet "https://my.example.com"
        (Demo.request ["Bearer good"])).trace = [r2] ∧
      r2 = { Demo.request ["Bearer good"] with
        ctx := (contextEventKey, CtxValue.identityDoc Demo.doc) ::
          (Demo.request ["Bearer good"]).ctx } ∧
      Context.Value r2.Context contextEventKey = some (.identityDoc Demo.doc) ∧
      (∀ k : CtxKey, k ≠ contextEventKey →
        Context.Value r2.Context k =
          Context.Value (Demo.request ["Bearer good"]).Context k) ∧
      r2.Method = (Demo.request ["Bearer good"]).Method ∧
      r2.URL = (Demo.request ["Bearer good"]).URL ∧
      r2.Header = (Demo.request ["Bearer good"]).Header ∧
      r2.Body = (Demo.request ["Bearer good"]).Body ∧
      responseWrites (authMiddleware Demo.parser Demo.keySet "https://my.example.com"
        (Demo.request ["Bearer good"])).trace = [] ∧
      (authMiddleware Demo.parser Demo.keySet "https://my.example.com"
        (Demo.request ["Bearer good"])).completion = .returned :=
  authMiddleware_verifier_success Demo.parser Demo.keySet "https://my.example.com"
    (Demo.request ["Bearer good"]) " good" Demo.doc (by decide) (by decide) (by decide)

/-! ## The claims on `getKey` -/

/-- A header map without a `kid` entry yields the nil interface. -/
theorem headerAt_absent (hdr : List (String × HeaderValue)) (name : String)
    (h : ∀ v, (name, v) ∉ hdr) : Token.headerAt hdr name = .null := by
  induction hdr with
  | nil => rfl
  | cons p rest ih =>
    obtain ⟨k, v⟩ := p
    have hk : k ≠ name := by
      intro hkn
      exact h v (by rw [hkn]; exact List.mem_cons_self _ _)
    simp only [Token.headerAt, hk, if_false]
    exact ih (fun w hw => h w (List.mem_cons_of_mem _ hw))

/-- C5 as stated fails: the key set holds exactly one key with the identifier
`bad`, and `getKey` returns no key for a token naming it, but the error of
the key's `Materialize`. -/
theorem getKey_single_match_without_key :
    Token.headerAt (Demo.tokenFor "bad").Header "kid" = .string "bad" ∧
    (Demo.keySet.LookupKeyID "bad").length = 1 ∧
    getKey Demo.keySet (Demo.tokenFor "bad") =
      .error ⟨"key has no rsa.PublicKey associated with it"⟩ ∧
    ¬ ((∃ pk, getKey Demo.keySet (Demo.tokenFor "bad") = .ok pk) ↔
      (Demo.keySet.LookupKeyID "bad").length = 1) := by
  have h1 : Token.headerAt (Demo.tokenFor "bad").Header "kid" = .string "bad" := by decide
  have h2 : (Demo.keySet.LookupKeyID "bad").length = 1 := by decide
  have h3 : getKey Demo.keySet (Demo.tokenFor "bad") =
      .error ⟨"key has no rsa.PublicKey associated with it"⟩ := by
    unfold getKey
    rw [h1]
    rfl
  refine ⟨h1, h2, h3, ?_⟩
  rw [h3]
  intro hiff
  obtain ⟨pk, hpk⟩ := hiff.mpr h2
  cases hpk

/-- C5, amended: for a token whose header `kid` is the string `kid`, `getKey`
returns what `Materialize` of the single key returns when the lookup yields
exactly one key, so it returns a key exactly when the lookup yields one key
whose materialization succeeds with that key; when the lookup yields no key
or more than one, `getKey` returns the error `unable to find key` and no key. -/
theorem getKey_string_kid (jwtSet : jwk.Set) (token : Token) (kid : String)
    (hkid : Token.headerAt token.Header "kid" = .string kid) :
    (∀ key, jwtSet.LookupKeyID kid = [key] → getKey jwtSet token = key.Materialize) ∧
    (∀ pk, getKey jwtSet token = .ok pk ↔
      ∃ key, jwtSet.LookupKeyID kid = [key] ∧ key.Materialize = .ok pk) ∧
    ((jwtSet.LookupKeyID kid).length ≠ 1 →
      getKey jwtSet token = .error (errors.New "unable to find key")) := by
  unfold getKey
  rw [hkid]
  simp only
  cases hl : jwtSet.LookupKeyID kid with
  | nil =>
    refine ⟨fun key hk => (by cases hk), fun pk => ⟨fun h => (by cases h), ?_⟩, fun _ => rfl⟩
    rintro ⟨key, hk, _⟩
    cases hk
  | cons k rest =>
    cases rest with
    | nil =>
      refine ⟨fun key hk => (by cases hk; rfl), fun pk => ⟨fun h => ⟨k, rfl, h⟩, ?_⟩, ?_⟩
      · rintro ⟨key, hk, hm⟩
        cases hk
        exact hm
      · intro hlen
        simp at hlen
    | cons k2 rest2 =>
      refine ⟨fun key hk => (by cases hk), fun pk => ⟨fun h => (by cases h), ?_⟩, fun _ => rfl⟩
      rintro ⟨key, hk, _⟩
      cases hk

/-- C5, amended, at a token naming `k1`, for which `Demo.keySet` holds one
key. -/
theorem getKey_string_kid_witness :
    (∀ key, Demo.keySet.LookupKeyID "k1" = [key] →
      getKey Demo.keySet (Demo.tokenFor "k1") = key.Materialize) ∧
    (∀ pk, getKey Demo.keySet (Demo.tokenFor "k1") = .ok pk ↔
      ∃ key, Demo.keySet.LookupKeyID "k1" = [key] ∧ key.Materialize = .ok pk) ∧
    ((Demo.keySet.LookupKeyID "k1").length ≠ 1 →
      getKey Demo.keySet (Demo.tokenFor "k1") = .error (errors.New "unable to find key")) :=
  getKey_string_kid Demo.keySet (Demo.tokenFor "k1") "k1" (by decide)

/-- C6: for a token whose header has no `kid` entry, or whose `kid` entry is
not a string, `getKey` returns the error
`expecting JWT header to have string kid` and no key, whatever the key set
is. -/
theorem getKey_no_string_kid (jwtSet jwtSet2 : jwk.Set) (token : Token)
    (h : (∀ v, ("kid", v) ∉ token.Header) ∨
      (∀ s, Token.headerAt token.Header "kid" ≠ .string s)) :
    getKey jwtSet token = .error (errors.New "expecting JWT header to have string kid") ∧
    getKey jwtSet token = getKey jwtSet2 token := by
  have hns : ∀ s, Token.headerAt token.Header "kid" ≠ .string s := by
    rcases h with h | h
    · intro s hs
      rw [headerAt_absent token.Header "kid" h] at hs
      cases hs
    · exact h
  unfold getKey
  cases hv : Token.headerAt token.Header "kid" with
  | string s => exact absurd hv (hns s)
  | null => exact ⟨rfl, rfl⟩
  | bool b => exact ⟨rfl, rfl⟩
  | number n => exact ⟨rfl, rfl⟩
  | array => exact ⟨rfl, rfl⟩
  | object => exact ⟨rfl, rfl⟩

/-- C6 at a token whose `kid` is the number 7. -/
theorem getKey_no_string_kid_witness :
    getKey Demo.keySet ⟨[("alg", .string "RS256"), ("kid", .number 7)], .other, false⟩ =
      .error (errors.New "expecting JWT header to have string kid") ∧
    getKey Demo.keySet ⟨[("alg", .string "RS256"), ("kid", .number 7)], .other, false⟩ =
      getKey ⟨[]⟩ ⟨[("alg", .string "RS256"), ("kid", .number 7)], .other, false⟩ :=
  getKey_no_string_kid Demo.keySet ⟨[]⟩
    ⟨[("alg", .string "RS256"), ("kid", .number 7)], .other, false⟩
    (Or.inr (fun s hs => by cases hs))

/-! ## The claims on `verifyGoogleIDToken` -/

/-- The two kinds of log line differ in their first character. -/
theorem logOIDCDoc_ne_logErrorParsing (d : gcpIdentityDoc) (e : GoError) :
    logOIDCDoc d ≠ logErrorParsing e := by
  intro h
  have hd := congrArg String.data h
  simp only [logOIDCDoc, logErrorParsing, String.data_append] at hd
  simp only [List.cons_append, List.append_assoc] at hd
  have hc := (List.cons.inj hd).1
  revert hc
  decide

/-- C7: when the parser reports no error and returns a token whose claims
are an identity document `d` and which is marked valid, `verifyGoogleIDToken`
returns `d` and a nil error; in every other case it returns the zero-valued
identity document and a non-nil error. -/
theorem verifyGoogleIDToken_result (P : ParseWithClaims) (jwtSet : jwk.Set) (ctx : Context)
    (aud rawToken : String) :
    (∀ token d, P rawToken (.identityDoc gcpIdentityDoc.zero) (getKey jwtSet) = .parsed token →
      token.Claims = .identityDoc d → token.Valid = true →
      (verifyGoogleIDToken P jwtSet ctx aud rawToken).1 = (d, none)) ∧
    ((¬ ∃ token d, P rawToken (.identityDoc gcpIdentityDoc.zero) (getKey jwtSet) =
        .parsed token ∧ token.Claims = .identityDoc d ∧ token.Valid = true) →
      ∃ e, (verifyGoogleIDToken P jwtSet ctx aud rawToken).1 =
        (gcpIdentityDoc.zero, some e)) := by
  unfold verifyGoogleIDToken
  cases hp : P rawToken (.identityDoc gcpIdentityDoc.zero) (getKey jwtSet) with
  | failed t e =>
    refine ⟨fun token d h => (by cases h), fun _ => ⟨e, rfl⟩⟩
  | parsed token =>
    obtain ⟨hdr, claims, valid⟩ := token
    cases claims with
    | other =>
      refine ⟨fun token d h hc => ?_, fun _ => ⟨_, rfl⟩⟩
      cases h
      cases hc
    | identityDoc d0 =>
      cases valid with
      | false =>
        refine ⟨fun token d h hc hv => ?_, fun _ => ⟨_, rfl⟩⟩
        cases h
        cases hv
      | true =>
        refine ⟨fun token d h hc hv => ?_, fun hnot => ?_⟩
        · cases h
          cases hc
          rfl
        · exact absurd ⟨_, d0, rfl, rfl, rfl⟩ hnot

/-- C7 at the raw tokens `good` (accepted with `Demo.doc`) and `forged`
(rejected with the zero-valued document). -/
theorem verifyGoogleIDToken_result_witness :
    (verifyGoogleIDToken Demo.parser Demo.keySet [] "https://my.example.com" "good").1 =
      (Demo.doc, none) ∧
    ∃ e, (verifyGoogleIDToken Demo.parser Demo.keySet [] "https://my.example.com" "forged").1 =
      (gcpIdentityDoc.zero, some e) :=
  ⟨(verifyGoogleIDToken_result Demo.parser Demo.keySet [] "https://my.example.com" "good").1
      { Demo.tokenFor "k1" with Valid := true } Demo.doc (by decide) rfl rfl,
    (verifyGoogleIDToken_result Demo.parser Demo.keySet [] "https://my.example.com" "forged").2
      (fun h => by
        obtain ⟨token, d, hp, _⟩ := h
        have hf : Demo.parser "forged" (.identityDoc gcpIdentityDoc.zero)
            (getKey Demo.keySet) =
            .failed (some (Demo.tokenFor "k1")) ⟨"crypto/rsa: verification error"⟩ := by
          decide
        rw [hf] at hp
        cases hp)⟩

/-- C8: the result of `verifyGoogleIDToken` (the returned pair and the log
lines) is the same for any two expected audiences; so when the parser accepts
a token with claims `d`, the verifier returns `d` with a nil error for every
expected audience, also one that differs from the audience claim of `d`. -/
theorem verifyGoogleIDToken_ignores_audience (P : ParseWithClaims) (jwtSet : jwk.Set)
    (ctx : Context) (a1 a2 rawToken : String) :
    verifyGoogleIDToken P jwtSet ctx a1 rawToken =
      verifyGoogleIDToken P jwtSet ctx a2 rawToken ∧
    (∀ token d, P rawToken (.identityDoc gcpIdentityDoc.zero) (getKey jwtSet) = .parsed token →
      token.Claims = .identityDoc d → token.Valid = true →
      ∀ aud, aud ≠ d.StandardClaims.Audience →
        (verifyGoogleIDToken P jwtSet ctx aud rawToken).1 = (d, none)) := by
  refine ⟨rfl, ?_⟩
  intro token d hp hc hv aud _
  obtain ⟨hdr, claims, valid⟩ := token
  simp only at hc hv
  subst hc
  subst hv
  unfold verifyGoogleIDToken
  rw [hp]

/-- C8 at the raw token `good`, whose audience claim is
`https://other.example.com`: it is accepted for the expected audience
`https://my.example.com`. -/
theorem verifyGoogleIDToken_ignores_audience_witness :
    Demo.doc.StandardClaims.Audience ≠ "https://my.example.com" ∧
    (verifyGoogleIDToken Demo.parser Demo.keySet [] "https://my.example.com" "good").1 =
      (Demo.doc, none) :=
  ⟨by decide,
    (verifyGoogleIDToken_ignores_audience Demo.parser Demo.keySet [] "a1" "a2" "good").2
      { Demo.tokenFor "k1" with Valid := true } Demo.doc (by decide) rfl rfl
      "https://my.example.com" (by decide)⟩

/-- C10 as stated fails: the raw token `forged` is parsed into a token that
carries the identity document `Demo.doc`, its signature check fails, and
`verifyGoogleIDToken` writes the line `Error parsing JWT ...` only, not the
line with audience and issuer. -/
theorem verifyGoogleIDToken_invalid_token_not_logged :
    Demo.parser "forged" (.identityDoc gcpIdentityDoc.zero) (getKey Demo.keySet) =
      .failed (some (Demo.tokenFor "k1")) ⟨"crypto/rsa: verification error"⟩ ∧
    (Demo.tokenFor "k1").Claims = .identityDoc Demo.doc ∧
    (verifyGoogleIDToken Demo.parser Demo.keySet [] "https://my.example.com" "forged").2 =
      ["Error parsing JWT crypto/rsa: verification error"] ∧
    logOIDCDoc Demo.doc ∉
      (verifyGoogleIDToken Demo.parser Demo.keySet [] "https://my.example.com" "forged").2 := by
  refine ⟨by decide, rfl, by decide, by decide⟩

/-- C10, amended: `verifyGoogleIDToken` writes the line with audience and
issuer exactly when it accepts the token (the parser reports no error, the
claims are an identity document and the token is marked valid), and then it
is the only line. When the parser reports an error, also one raised after
the token was parsed, the only line is `Error parsing JWT ...` and no line
with audience and issuer is written; when the parser reports no error and the
token is not accepted, nothing is written. -/
theorem verifyGoogleIDToken_log_lines (P : ParseWithClaims) (jwtSet : jwk.Set)
    (ctx : Context) (aud rawToken : String) :
    (∀ token d, P rawToken (.identityDoc gcpIdentityDoc.zero) (getKey jwtSet) = .parsed token →
      token.Claims = .identityDoc d → token.Valid = true →
      (verifyGoogleIDToken P jwtSet ctx aud rawToken).2 = [logOIDCDoc d]) ∧
    (∀ t e, P rawToken (.identityDoc gcpIdentityDoc.zero) (getKey jwtSet) = .failed t e →
      (verifyGoogleIDToken P jwtSet ctx aud rawToken).2 = [logErrorParsing e] ∧
      ∀ d, logOIDCDoc d ∉ (verifyGoogleIDToken P jwtSet ctx aud rawToken).2) ∧
    (∀ token, P rawToken (.identityDoc gcpIdentityDoc.zero) (getKey jwtSet) = .parsed token →
      (¬ ∃ d, token.Claims = .identityDoc d ∧ token.Valid = true) →
      (verifyGoogleIDToken P jwtSet ctx aud rawToken).2 = []) := by
  unfold verifyGoogleIDToken
  refine ⟨?_, ?_, ?_⟩
  · intro token d hp hc hv
    obtain ⟨hdr, claims, valid⟩ := token
    simp only at hc hv
    subst hc
    subst hv
    rw [hp]
  · intro t e hp
    rw [hp]
    refine ⟨rfl, fun d hmem => ?_⟩
    simp only [List.mem_singleton] at hmem
    exact logOIDCDoc_ne_logErrorParsing d e hmem
  · intro token hp hnot
    rw [hp]
    obtain ⟨hdr, claims, valid⟩ := token
    cases claims with
    | other => rfl
    | identityDoc d0 =>
      cases valid with
      | false => rfl
      | true => exact absurd ⟨d0, rfl, rfl⟩ hnot

/-- C10, amended, at the raw tokens `good` and `forged`. -/
theorem verifyGoogleIDToken_log_lines_witness :
    (verifyGoogleIDToken Demo.parser Demo.keySet [] "https://my.example.com" "good").2 =
      [logOIDCDoc Demo.doc] ∧
    (verifyGoogleIDToken Demo.parser Demo.keySet [] "https://my.example.com" "forged").2 =
      [logErrorParsing ⟨"crypto/rsa: verification error"⟩] :=
  ⟨(verifyGoogleIDToken_log_lines Demo.parser Demo.keySet [] "https://my.example.com" "good").1
      { Demo.tokenFor "k1" with Valid := true } Demo.doc (by decide) rfl rfl,
    ((verifyGoogleIDToken_log_lines Demo.parser Demo.keySet [] "https://my.example.com"
      "forged").2.1 (some (Demo.tokenFor "k1")) ⟨"crypto/rsa: verification error"⟩
      (by decide)).1⟩

/-! ## The token taken from the header -/

/-- The marker followed by white space only holds the marker once. -/
theorem occurrences_bearer_spaces (ws : List Char) (hws : ∀ c ∈ ws, strings.isSpace c = true) :
    strings.occurrences ("Bearer" : String).data (("Bearer" : String).data ++ ws) = 1 := by
  have h0 := strings.occurrences_spaces ws hws
  rw [strings.bearer_data] at h0 ⊢
  simp [strings.occurrences, List.isPrefixOf, h0]

/-- The call of the verifier when `splitToken[1]` is in range. -/
theorem verifierCalls_of_piece (P : ParseWithClaims) (jwtSet : jwk.Set) (aud : String)
    (r : http.Request) (piece : String)
    (hne : http.Header.Get r.Header "Authorization" ≠ "")
    (hsplit : (strings.Split (http.Header.Get r.Header "Authorization") "Bearer").get? 1 =
      some piece) :
    verifierCalls (authMiddleware P jwtSet aud r).trace = [(aud, strings.TrimSpace piece)] ∧
    (authMiddleware P jwtSet aud r).completion = .returned := by
  cases hres : (verifyGoogleIDToken P jwtSet r.Context aud (strings.TrimSpace piece)).1 with
  | mk d oe =>
    cases oe with
    | some e =>
      rw [authMiddleware_of_error P jwtSet aud r piece d e hne hsplit hres]
      refine ⟨?_, rfl⟩
      simp only [verifierCalls_append, verifierCalls_logs]
      rfl
    | none =>
      rw [authMiddleware_of_success P jwtSet aud r piece d hne hsplit hres]
      refine ⟨?_, rfl⟩
      simp only [verifierCalls_append, verifierCalls_logs]
      rfl

/-- A header value that holds the marker is not empty. -/
theorem header_ne_empty_of_marker (s : String) (pre post : List Char)
    (hs : s.data = pre ++ ("Bearer" : String).data ++ post) : s ≠ "" := by
  intro h
  rw [h, strings.bearer_data] at hs
  have hl := congrArg List.length hs
  simp at hl
  omega

/-- C9: when the `Authorization` value is `pre ++ "Bearer" ++ post` and holds
the marker exactly once, the verifier is called once, with the configured
audience and with `post` trimmed of leading and trailing white space (`post`
is white space, the token, white space, and the token neither starts nor ends
with white space), and the run does not panic. When the value is `Bearer` followed by white space only,
the token passed is the empty string, the run does not panic, and, the JWT
parser reporting an error for the empty string, the response is 401 and the
wrapped handler is not called. -/
theorem authMiddleware_single_marker (P : ParseWithClaims) (jwtSet : jwk.Set) (aud : String)
    (r : http.Request) :
    (∀ pre post : List Char,
      (http.Header.Get r.Header "Authorization").data =
        pre ++ ("Bearer" : String).data ++ post →
      strings.occurrences ("Bearer" : String).data
        (http.Header.Get r.Header "Authorization").data = 1 →
      verifierCalls (authMiddleware P jwtSet aud r).trace =
        [(aud, strings.TrimSpace ⟨post⟩)] ∧
      (∃ lead trail : List Char,
        post = lead ++ (strings.TrimSpace ⟨post⟩).data ++ trail ∧
        (∀ c ∈ lead, strings.isSpace c = true) ∧ (∀ c ∈ trail, strings.isSpace c = true) ∧
        (∀ c, (strings.TrimSpace ⟨post⟩).data.head? = some c → strings.isSpace c = false) ∧
        (∀ c, (strings.TrimSpace ⟨post⟩).data.getLast? = some c →
          strings.isSpace c = false)) ∧
      (authMiddleware P jwtSet aud r).completion = .returned) ∧
    (∀ ws : List Char, (∀ c ∈ ws, strings.isSpace c = true) →
      (http.Header.Get r.Header "Authorization").data = ("Bearer" : String).data ++ ws →
      verifierCalls (authMiddleware P jwtSet aud r).trace = [(aud, "")] ∧
      (authMiddleware P jwtSet aud r).completion = .returned ∧
      ((∃ t e, P "" (.identityDoc gcpIdentityDoc.zero) (getKey jwtSet) = .failed t e) →
        responseWrites (authMiddleware P jwtSet aud r).trace =
          [.httpError (http.StatusText 401) 401] ∧
        handlerCalls (authMiddleware P jwtSet aud r).trace = [])) := by
  constructor
  · intro pre post hs hone
    have hne := header_ne_empty_of_marker _ pre post hs
    have hsp := strings.Split_one_marker _ pre post hs hone
    have hget : (strings.Split (http.Header.Get r.Header "Authorization") "Bearer").get? 1 =
        some ⟨post⟩ := by
      rw [hsp]
      rfl
    have hv := verifierCalls_of_piece P jwtSet aud r ⟨post⟩ hne hget
    exact ⟨hv.1, strings.trimSpaceChars_spec post, hv.2⟩
  · intro ws hws hs
    have hs2 : (http.Header.Get r.Header "Authorization").data =
        [] ++ ("Bearer" : String).data ++ ws := by
      rw [hs]
      rfl
    have hone : strings.occurrences ("Bearer" : String).data
        (http.Header.Get r.Header "Authorization").data = 1 := by
      rw [hs]
      exact occurrences_bearer_spaces ws hws
    have hne := header_ne_empty_of_marker _ [] ws hs2
    have hsp := strings.Split_one_marker _ [] ws hs2 hone
    have hget : (strings.Split (http.Header.Get r.Header "Authorization") "Bearer").get? 1 =
        some ⟨ws⟩ := by
      rw [hsp]
      rfl
    have htrim : strings.TrimSpace ⟨ws⟩ = "" := by
      unfold strings.TrimSpace
      rw [strings.trimSpaceChars_spaces ws hws]
    have hv := verifierCalls_of_piece P jwtSet aud r ⟨ws⟩ hne hget
    rw [htrim] at hv
    refine ⟨hv.1, hv.2, ?_⟩
    rintro ⟨t, e, hp⟩
    have herr : (verifyGoogleIDToken P jwtSet r.Context aud (strings.TrimSpace ⟨ws⟩)).1 =
        (gcpIdentityDoc.zero, some e) := by
      rw [htrim]
      unfold verifyGoogleIDToken
      rw [hp]
    rw [authMiddleware_of_error P jwtSet aud r ⟨ws⟩ gcpIdentityDoc.zero e hne hget herr]
    constructor
    · simp only [responseWrites_append, responseWrites_logs]
      rfl
    · simp only [handlerCalls_append, handlerCalls_logs]
      rfl

/-- C9 at the header values `Bearer good ` (token `good`) and `Bearer`
followed by a blank and a tab (empty token, response 401). -/
theorem authMiddleware_single_marker_witness :
    verifierCalls (authMiddleware Demo.parser Demo.keySet "https://my.example.com"
      (Demo.request ["Bearer good "])).trace = [("https://my.example.com", "good")] ∧
    verifierCalls (authMiddleware Demo.parser Demo.keySet "https://my.example.com"
      (Demo.request ["Bearer \t"])).trace = [("https://my.example.com", "")] ∧
    responseWrites (authMiddleware Demo.parser Demo.keySet "https://my.example.com"
      (Demo.request ["Bearer \t"])).trace = [.httpError (http.StatusText 401) 401] ∧
    handlerCalls (authMiddleware Demo.parser Demo.keySet "https://my.example.com"
      (Demo.request ["Bearer \t"])).trace = [] :=
  ⟨((authMiddleware_single_marker Demo.parser Demo.keySet "https://my.example.com"
      (Demo.request ["Bearer good "])).1 [] [' ', 'g', 'o', 'o', 'd', ' '] (by decide)
      (by decide)).1,
    ((authMiddleware_single_marker Demo.parser Demo.keySet "https://my.example.com"
      (Demo.request ["Bearer \t"])).2 [' ', '\t'] (by decide) (by decide)).1,
    ((authMiddleware_single_marker Demo.parser Demo.keySet "https://my.example.com"
      (Demo.request ["Bearer \t"])).2 [' ', '\t'] (by decide) (by decide)).2.2
      ⟨none, ⟨"token contains an invalid number of segments"⟩, by decide⟩⟩

end GcpRclone
